import Mathlib

/-!
Verification development for the asynchronous TCP port scanner
(`src/scanner.py`).  The core of the program is:

* `fetch_service_banner(reader)` (lines 48-54): a single
  `await reader.read(1024)` followed by `banner.decode().strip()`;
  `asyncio.CancelledError` is caught and turned into `None`, every other
  exception (in particular a `UnicodeDecodeError` from `decode`) escapes.
* `scan_port(host, port)` (lines 17-37): `async with semaphore:` around a
  `try` block that awaits `asyncio.wait_for(open_connection, timeout=1)`,
  then the banner read, then `writer.close()` / `await writer.wait_closed()`,
  then `await asyncio.sleep(0.1)`, and returns `(port, banner)`;
  `except` clauses for `asyncio.TimeoutError`, `ConnectionRefusedError`
  and `Exception` each log and return `(port, None)`.
* `scan_ports(host, ports)` (lines 39-46): launches one `scan_port` task
  per port, `asyncio.gather`s them (results in task order) and builds the
  dict `{port: info for port, info in results if info is not None}`.

The embedding below models the network's behaviour towards one port as an
oracle value (`NetBehavior`), time in tenths of the code's time unit
(so the `timeout=1` connection budget is `10` and the `sleep(0.1)` delay
is `1`), and the observable actions of one probe as an event trace.
A second, small-step model of the whole scan (scheduler state, one task
per port, a shared semaphore counter) is used for the concurrency claims.
-/

/-! ### Bytes and UTF-8 decoding

Python's `bytes.decode()` is strict UTF-8: it rejects stray continuation
bytes, overlong encodings, surrogate code points and code points above
`0x10FFFF`.  `utf8Chars` implements exactly that validation/decoding over
a byte list. -/

/-- Is `b` a UTF-8 continuation byte (`0x80`–`0xBF`)? -/
def isContByte (b : Nat) : Prop := 128 ≤ b ∧ b < 192

instance (b : Nat) : Decidable (isContByte b) := by
  unfold isContByte; infer_instance

/-- Strict UTF-8 decoding of a byte list into characters, mirroring
Python's `bytes.decode()` (no error handler): `none` exactly when the
bytes are not valid UTF-8. -/
def utf8Chars : List Nat → Option (List Char)
  | [] => some []
  | b :: rest =>
    if b < 128 then
      match utf8Chars rest with
      | some cs => some (Char.ofNat b :: cs)
      | none => none
    else if b < 192 then none
    else if b < 224 then
      match rest with
      | b1 :: rest1 =>
        if isContByte b1 then
          let cp := (b - 192) * 64 + (b1 - 128)
          if cp < 128 then none
          else
            match utf8Chars rest1 with
            | some cs => some (Char.ofNat cp :: cs)
            | none => none
        else none
      | [] => none
    else if b < 240 then
      match rest with
      | b1 :: b2 :: rest2 =>
        if isContByte b1 ∧ isContByte b2 then
          let cp := (b - 224) * 4096 + (b1 - 128) * 64 + (b2 - 128)
          if cp < 2048 then none
          else if 55296 ≤ cp ∧ cp < 57344 then none
          else
            match utf8Chars rest2 with
            | some cs => some (Char.ofNat cp :: cs)
            | none => none
        else none
      | _ => none
    else if b < 245 then
      match rest with
      | b1 :: b2 :: b3 :: rest3 =>
        if isContByte b1 ∧ isContByte b2 ∧ isContByte b3 then
          let cp := (b - 240) * 262144 + (b1 - 128) * 4096 + (b2 - 128) * 64 + (b3 - 128)
          if cp < 65536 then none
          else if 1114111 < cp then none
          else
            match utf8Chars rest3 with
            | some cs => some (Char.ofNat cp :: cs)
            | none => none
        else none
      | _ => none
    else none

/-- Strict UTF-8 decoding into a string (`bytes.decode()`). -/
def utf8Decode (bytes : List Nat) : Option String :=
  match utf8Chars bytes with
  | some cs => some (String.mk cs)
  | none => none

/-- The whitespace characters removed by Python's `str.strip()`
(restricted to the ASCII ones, which cover every banner of interest). -/
def isStripChar (c : Char) : Bool :=
  c = ' ' || c = Char.ofNat 9 || c = Char.ofNat 10 || c = Char.ofNat 13 ||
  c = Char.ofNat 11 || c = Char.ofNat 12

/-- Python's `str.strip()`: drop leading and trailing whitespace. -/
def pyStrip (s : String) : String :=
  String.mk (((s.data.dropWhile isStripChar).reverse.dropWhile isStripChar).reverse)

/-! ### The network oracle

What the network does when one probe touches one port.  Time is measured
in tenths of the code's time unit, so the `timeout=1` connection budget
is `10` ticks and the `asyncio.sleep(0.1)` delay is `1` tick. -/

/-- Behaviour of the remote side once the connection is established:
what `await reader.read(1024)` does.  `ready bytes delay` means the call
returns `bytes` (data or an empty EOF read) after `delay` ticks;
`cancelled` means the awaited read is cancelled (`asyncio.CancelledError`);
`raisesErr d` means the read raises an ordinary exception (for example a
connection reset) with detail `d`. -/
inductive ReadBehavior where
  | ready (bytes : List Nat) (delay : Nat)
  | cancelled
  | raisesErr (detail : String)
deriving DecidableEq, Repr

/-- Behaviour of the network for one connection attempt.
`silent`: nothing ever answers, so `asyncio.wait_for(·, timeout=1)` raises
`asyncio.TimeoutError`.  `refused`: the remote actively rejects
(`ConnectionRefusedError`).  `failed d`: any other connection-establishment
exception with detail `d`.  `accepts t r`: the connection is established
after `t` ticks and the subsequent read behaves like `r`; if `t` exceeds
the 10-tick budget, `wait_for` raises `asyncio.TimeoutError` instead. -/
inductive NetBehavior where
  | silent
  | refused
  | failed (detail : String)
  | accepts (connectTicks : Nat) (read : ReadBehavior)
deriving DecidableEq, Repr

/-- `MAX_CONCURRENT_SCANS = 100` (line 13). -/
def MAX_CONCURRENT_SCANS : Nat := 100

/-- The `timeout=1` argument of `asyncio.wait_for` (line 22), in ticks. -/
def CONNECT_TIMEOUT_TICKS : Nat := 10

/-- The `asyncio.sleep(0.1)` delay (line 27), in ticks. -/
def INTER_PROBE_DELAY_TICKS : Nat := 1

/-- Embedding of `fetch_service_banner` (lines 48-54).  Input is the read
behaviour of the established connection.  `Except.ok` is a normal return
(the banner string, or `none` when `asyncio.CancelledError` was caught);
`Except.error` is an exception escaping the function (a decode failure
from line 52, or an exception raised by `reader.read` itself — only
`CancelledError` is caught). -/
def fetch_service_banner (read : ReadBehavior) : Except String (Option String) :=
  match read with
  | .ready bytes _ =>
    match utf8Decode (bytes.take 1024) with
    | some s => Except.ok (some (pyStrip s))
    | none => Except.error "UnicodeDecodeError"
  | .cancelled => Except.ok none
  | .raisesErr d => Except.error d

/-! ### One probe, functionally -/

/-- The outcome classification of one probe, identified with which branch
of `scan_port` produced the return value: `openS` is the no-exception
path (line 28), `timeoutS` the `asyncio.TimeoutError` handler (lines
29-31), `refusedS` the `ConnectionRefusedError` handler (lines 32-34),
`errorS` the generic `Exception` handler (lines 35-37). -/
inductive Status where
  | openS
  | timeoutS
  | refusedS
  | errorS
deriving DecidableEq, Repr

/-- Severity of a `logging` call in `scan_port`. -/
inductive LogLevel where
  | warning
  | error
deriving DecidableEq, Repr

/-- One log record emitted by a probe. -/
structure LogEntry where
  level : LogLevel
  msg : String
deriving DecidableEq, Repr

/-- The observable actions of one probe, in program order. -/
inductive Event where
  | acquire
  | connectAttempt
  | connected
  | closeWriter
  | waitClosed
  | sleepDelay
  | release
deriving DecidableEq, Repr

/-- Everything one `scan_port` invocation does: the returned pair, the
branch that produced it, the log record (if any) and the event trace. -/
structure ProbeRun where
  result : Nat × Option String
  status : Status
  log : Option LogEntry
  events : List Event
deriving DecidableEq, Repr

/-- The message of `logging.warning` on line 30. -/
def timeoutMsg (target_host : String) (target_port : Nat) : String :=
  "Timeout occurred for port " ++ toString target_port ++ " on " ++ target_host

/-- The message of `logging.warning` on line 33. -/
def refusedMsg (target_host : String) (target_port : Nat) : String :=
  "Connection refused for port " ++ toString target_port ++ " on " ++ target_host

/-- The message of `logging.error` on line 36. -/
def unexpectedMsg (target_host : String) (target_port : Nat) (detail : String) : String :=
  "Unexpected error for port " ++ toString target_port ++ " on " ++ target_host ++ ": " ++ detail

/-- Embedding of `scan_port` (lines 17-37) against network behaviour
`net`.  The event trace records, in order: semaphore acquisition
(line 18), the connection attempt (lines 21-22), establishment, writer
teardown (lines 25-26), the throttle sleep (line 27) and the semaphore
release performed by the exit of the `async with` block on every path.
Note two facts visible in the traces: the exception paths never contain
`closeWriter`/`waitClosed`/`sleepDelay`, and `release` follows
`sleepDelay` on the success path (the sleep is inside the `async with`
block). -/
def scan_port (target_host : String) (target_port : Nat) (net : NetBehavior) : ProbeRun :=
  match net with
  | .silent =>
    { result := (target_port, none), status := .timeoutS,
      log := some ⟨.warning, timeoutMsg target_host target_port⟩,
      events := [.acquire, .connectAttempt, .release] }
  | .refused =>
    { result := (target_port, none), status := .refusedS,
      log := some ⟨.warning, refusedMsg target_host target_port⟩,
      events := [.acquire, .connectAttempt, .release] }
  | .failed d =>
    { result := (target_port, none), status := .errorS,
      log := some ⟨.error, unexpectedMsg target_host target_port d⟩,
      events := [.acquire, .connectAttempt, .release] }
  | .accepts t r =>
    if CONNECT_TIMEOUT_TICKS < t then
      { result := (target_port, none), status := .timeoutS,
        log := some ⟨.warning, timeoutMsg target_host target_port⟩,
        events := [.acquire, .connectAttempt, .release] }
    else
      match fetch_service_banner r with
      | .error d =>
        { result := (target_port, none), status := .errorS,
          log := some ⟨.error, unexpectedMsg target_host target_port d⟩,
          events := [.acquire, .connectAttempt, .connected, .release] }
      | .ok info =>
        { result := (target_port, info), status := .openS,
          log := none,
          events := [.acquire, .connectAttempt, .connected, .closeWriter,
                     .waitClosed, .sleepDelay, .release] }

/-- The second component of the pair a probe returns, as a function of
the network behaviour alone (it does not depend on host or port). -/
def probeInfo (net : NetBehavior) : Option String :=
  match net with
  | .accepts t r =>
    if CONNECT_TIMEOUT_TICKS < t then none
    else
      match fetch_service_banner r with
      | .ok info => info
      | .error _ => none
  | _ => none

/-! ### The orchestrator -/

/-- One step of Python's dict comprehension
`{port: info for port, info in results if info is not None}`: inserting
`k ↦ v` into a dict keeps the position of an existing key (overwriting
its value) and appends a fresh key at the end. -/
def dictInsert (m : List (Nat × String)) (k : Nat) (v : String) : List (Nat × String) :=
  if m.any (fun kv => kv.fst == k) then
    m.map (fun kv => if kv.fst = k then (k, v) else kv)
  else m ++ [(k, v)]

/-- One result entering the dict comprehension on line 45: kept when
its info is not `None`, skipped otherwise. -/
def openStep (m : List (Nat × String)) (pr : Nat × Option String) : List (Nat × String) :=
  match pr.snd with
  | some info => dictInsert m pr.fst info
  | none => m

/-- The dict comprehension on line 45: keep the results whose info is not
`None`, building a port-keyed dict. -/
def buildOpenPorts (results : List (Nat × Option String)) : List (Nat × String) :=
  results.foldl openStep []

/-- Embedding of `scan_ports` (lines 39-46): one `scan_port` per element
of `ports_to_scan` (`asyncio.gather` returns results in task order), then
the dict comprehension.  The network behaviour of a stable target is a
function of the port. -/
def scan_ports (target_host : String) (ports_to_scan : List Nat)
    (net : Nat → NetBehavior) : List (Nat × String) :=
  buildOpenPorts (ports_to_scan.map (fun port => (scan_port target_host port (net port)).result))

/-- The key set of the dict produced by `scan_ports`. -/
def dictKeys (m : List (Nat × String)) : List Nat := m.map (fun kv => kv.fst)

/-- Lookup in the dict produced by `scan_ports`. -/
def dictGet (m : List (Nat × String)) (k : Nat) : Option String :=
  (m.find? (fun kv => kv.fst == k)).map (fun kv => kv.snd)

example : utf8Decode [104, 105, 10] = some "hi\n" := by decide
example : utf8Decode [255] = none := by decide
example : pyStrip "  ready\n" = "ready" := by rfl
example : scan_ports "h" [1, 2] (fun _ => NetBehavior.refused) = [] := by decide
example :
    scan_ports "h" [9999] (fun _ => NetBehavior.accepts 0 (.ready [114, 101, 97, 100, 121, 10] 0)) =
      [(9999, "ready")] := by decide

/-! ### Small-step model of the whole scan

`scan_ports` launches every probe at once and the asyncio event loop
interleaves them; the only shared state is the module-level
`semaphore = asyncio.Semaphore(MAX_CONCURRENT_SCANS)` (line 15).  Each
task is a little automaton whose control points are the suspension
points of `scan_port`; the scheduler picks an enabled task and runs it
to its next suspension point. -/

/-- Control point of one probe task.  `waitPermit`: before/at the
semaphore acquisition of `async with semaphore` (line 18).
`connecting`: permit held, awaiting `wait_for(open_connection, 1)`
(lines 21-22).  `reading`: connection established, awaiting the banner
read (line 24).  `closing info`: `writer.close()` issued, awaiting
`writer.wait_closed()` (lines 25-26) with the banner `info` in hand.
`sleeping info`: awaiting `asyncio.sleep(0.1)` (line 27).
`done info`: returned `(port, info)`, permit released by the exit of the
`async with` block. -/
inductive Phase where
  | waitPermit
  | connecting
  | reading
  | closing (info : Option String)
  | sleeping (info : Option String)
  | done (info : Option String)
deriving DecidableEq, Repr

/-- One probe task: its port, the network's behaviour towards that port,
and its current control point. -/
structure ProbeTask where
  port : Nat
  behavior : NetBehavior
  phase : Phase
deriving DecidableEq, Repr

/-- The scheduler state: the semaphore's free-permit count and the tasks
in launch order. -/
structure SchedState where
  permits : Nat
  tasks : List ProbeTask
deriving DecidableEq, Repr

/-- Effect of one task step on the semaphore counter. -/
inductive Eff where
  | noEff
  | acqEff
  | relEff
deriving DecidableEq, Repr

/-- Apply a semaphore effect to the free-permit count. -/
def applyEff (e : Eff) (p : Nat) : Nat :=
  match e with
  | .noEff => p
  | .acqEff => p - 1
  | .relEff => p + 1

/-- The next control point (and semaphore effect) of a task, from the
code of `scan_port`: acquisition moves `waitPermit → connecting`; the
connection attempt either fails into an `except` handler (return, hence
`done none` and release at the `async with` exit) or establishes and
moves to the banner read; the banner read either raises out of
`fetch_service_banner` (the `except Exception` handler: `done none`,
release, no teardown) or returns `info` and moves to teardown, then the
sleep, then return with release.  `none` means the task cannot step
(already done, or an unreachable phase/behaviour combination). -/
def taskNext (ph : Phase) (b : NetBehavior) : Option (Phase × Eff) :=
  match ph with
  | .waitPermit => some (.connecting, .acqEff)
  | .connecting =>
    match b with
    | .silent => some (.done none, .relEff)
    | .refused => some (.done none, .relEff)
    | .failed _ => some (.done none, .relEff)
    | .accepts t _ =>
      if CONNECT_TIMEOUT_TICKS < t then some (.done none, .relEff)
      else some (.reading, .noEff)
  | .reading =>
    match b with
    | .accepts _ r =>
      match fetch_service_banner r with
      | .error _ => some (.done none, .relEff)
      | .ok info => some (.closing info, .noEff)
    | _ => none
  | .closing info => some (.sleeping info, .noEff)
  | .sleeping info => some (.done info, .relEff)
  | .done _ => none

/-- One scheduler step: pick a task, run it to its next suspension
point.  Acquisition is enabled only when a permit is free. -/
inductive Step : SchedState → SchedState → Prop where
  | step (s : SchedState) (i : Nat) (t : ProbeTask) (ph : Phase) (e : Eff)
      (hget : s.tasks[i]? = some t)
      (hnext : taskNext t.phase t.behavior = some (ph, e))
      (hacq : e = Eff.acqEff → 0 < s.permits) :
      Step s ⟨applyEff e s.permits, s.tasks.set i { t with phase := ph }⟩

/-- Reachability of scheduler states. -/
def Reach : SchedState → SchedState → Prop := Relation.ReflTransGen Step

/-- The initial state of one `scan_ports` run: all permits free, one
task per port (in list order), all at the semaphore. -/
def initState (ports : List Nat) (net : Nat → NetBehavior) : SchedState :=
  { permits := MAX_CONCURRENT_SCANS,
    tasks := ports.map (fun p => { port := p, behavior := net p, phase := Phase.waitPermit }) }

/-- Does a task at this control point hold a semaphore permit? -/
def holdsPermit (ph : Phase) : Bool :=
  match ph with
  | .waitPermit => false
  | .done _ => false
  | _ => true

/-- Does a task at this control point have a connection attempt in
flight or an established connection not yet torn down? -/
def activeConn (ph : Phase) : Bool :=
  match ph with
  | .connecting => true
  | .reading => true
  | .closing _ => true
  | _ => false

/-- Number of tasks currently holding a permit. -/
def countHolders (ts : List ProbeTask) : Nat :=
  ts.countP (fun t => holdsPermit t.phase)

/-- Number of tasks with an in-flight or established connection. -/
def countActive (ts : List ProbeTask) : Nat :=
  ts.countP (fun t => activeConn t.phase)

/-- Is every task finished (the `asyncio.gather` join point)? -/
def allDone (s : SchedState) : Prop :=
  ∀ t ∈ s.tasks, ∃ info, t.phase = Phase.done info

instance (s : SchedState) : Decidable (allDone s) := by
  unfold allDone
  have : ∀ t : ProbeTask, Decidable (∃ info, t.phase = Phase.done info) := by
    intro t
    cases h : t.phase with
    | done info => exact isTrue ⟨info, rfl⟩
    | waitPermit => exact isFalse (by simp [h])
    | connecting => exact isFalse (by simp [h])
    | reading => exact isFalse (by simp [h])
    | closing info => exact isFalse (by simp [h])
    | sleeping info => exact isFalse (by simp [h])
  infer_instance

/-- The info a task at this control point has returned (`none` when it
has not returned yet). -/
def phaseInfo (ph : Phase) : Option String :=
  match ph with
  | .done info => info
  | _ => none

/-- The `(port, info)` pairs a finished scheduler run hands to the dict
comprehension, in launch order. -/
def resultsOf (s : SchedState) : List (Nat × Option String) :=
  s.tasks.map (fun t => (t.port, phaseInfo t.phase))

/-! ### Generic list helpers -/

/-- Replacing the element at a position changes `countP` by the
difference between old and new element, stated without subtraction. -/
theorem countP_set_balance {α : Type} (p : α → Bool) :
    ∀ (l : List α) (i : Nat) (t t' : α), l[i]? = some t →
      (l.set i t').countP p + (if p t then 1 else 0) =
        l.countP p + (if p t' then 1 else 0) := by
  intro l
  induction l with
  | nil => intro i t t' h; simp at h
  | cons a as ih =>
    intro i t t' h
    cases i with
    | zero =>
      simp only [List.getElem?_cons_zero, Option.some.injEq] at h
      subst h
      simp [List.countP_cons]
      omega
    | succ j =>
      simp only [List.getElem?_cons_succ] at h
      simp only [List.set_cons_succ, List.countP_cons]
      have := ih j t t' h
      omega

/-- Setting a position to the value it already contains is a no-op. -/
theorem set_getElem?_self {α : Type} (l : List α) (i : Nat) (a : α)
    (h : l[i]? = some a) : l.set i a = l := by
  induction l generalizing i with
  | nil => simp at h
  | cons x xs ih =>
    cases i with
    | zero =>
      simp only [List.getElem?_cons_zero, Option.some.injEq] at h
      subst h; rfl
    | succ j =>
      simp only [List.getElem?_cons_succ] at h
      simp [List.set_cons_succ, ih j h]

/-! ### The scan invariant -/

/-- What is known about a task's behaviour from its control point: a
task at the banner read got there through a successful in-budget
connection; a task past the read carries the banner
`fetch_service_banner` returned; a finished task carries exactly the
info `scan_port` computes for its behaviour. -/
def detInv (t : ProbeTask) : Prop :=
  match t.phase with
  | .waitPermit => True
  | .connecting => True
  | .reading =>
    ∃ ct r, t.behavior = NetBehavior.accepts ct r ∧ ct ≤ CONNECT_TIMEOUT_TICKS
  | .closing info =>
    ∃ ct r, t.behavior = NetBehavior.accepts ct r ∧ ct ≤ CONNECT_TIMEOUT_TICKS ∧
      fetch_service_banner r = Except.ok info
  | .sleeping info =>
    ∃ ct r, t.behavior = NetBehavior.accepts ct r ∧ ct ≤ CONNECT_TIMEOUT_TICKS ∧
      fetch_service_banner r = Except.ok info
  | .done info => info = probeInfo t.behavior

/-- The semaphore effect of a step matches the change in
permit-holding of the stepping task. -/
theorem taskNext_holds (ph : Phase) (b : NetBehavior) (ph' : Phase) (e : Eff)
    (h : taskNext ph b = some (ph', e)) :
    (e = Eff.acqEff ∧ holdsPermit ph = false ∧ holdsPermit ph' = true) ∨
    (e = Eff.relEff ∧ holdsPermit ph = true ∧ holdsPermit ph' = false) ∨
    (e = Eff.noEff ∧ holdsPermit ph' = holdsPermit ph) := by
  cases ph with
  | waitPermit =>
    simp only [taskNext, Option.some.injEq, Prod.mk.injEq] at h
    obtain ⟨h1, h2⟩ := h
    subst h1; subst h2
    exact Or.inl ⟨rfl, rfl, rfl⟩
  | connecting =>
    cases b with
    | silent =>
      simp only [taskNext, Option.some.injEq, Prod.mk.injEq] at h
      obtain ⟨h1, h2⟩ := h
      subst h1; subst h2
      exact Or.inr (Or.inl ⟨rfl, rfl, rfl⟩)
    | refused =>
      simp only [taskNext, Option.some.injEq, Prod.mk.injEq] at h
      obtain ⟨h1, h2⟩ := h
      subst h1; subst h2
      exact Or.inr (Or.inl ⟨rfl, rfl, rfl⟩)
    | failed d =>
      simp only [taskNext, Option.some.injEq, Prod.mk.injEq] at h
      obtain ⟨h1, h2⟩ := h
      subst h1; subst h2
      exact Or.inr (Or.inl ⟨rfl, rfl, rfl⟩)
    | accepts ct r =>
      by_cases hct : CONNECT_TIMEOUT_TICKS < ct
      · simp only [taskNext, hct, if_true, Option.some.injEq, Prod.mk.injEq] at h
        obtain ⟨h1, h2⟩ := h
        subst h1; subst h2
        exact Or.inr (Or.inl ⟨rfl, rfl, rfl⟩)
      · simp only [taskNext, hct, if_false, Option.some.injEq, Prod.mk.injEq] at h
        obtain ⟨h1, h2⟩ := h
        subst h1; subst h2
        exact Or.inr (Or.inr ⟨rfl, rfl⟩)
  | reading =>
    cases b with
    | silent => simp [taskNext] at h
    | refused => simp [taskNext] at h
    | failed d => simp [taskNext] at h
    | accepts ct r =>
      cases hf : fetch_service_banner r with
      | error d =>
        simp only [taskNext, hf, Option.some.injEq, Prod.mk.injEq] at h
        obtain ⟨h1, h2⟩ := h
        subst h1; subst h2
        exact Or.inr (Or.inl ⟨rfl, rfl, rfl⟩)
      | ok info =>
        simp only [taskNext, hf, Option.some.injEq, Prod.mk.injEq] at h
        obtain ⟨h1, h2⟩ := h
        subst h1; subst h2
        exact Or.inr (Or.inr ⟨rfl, rfl⟩)
  | closing info =>
    simp only [taskNext, Option.some.injEq, Prod.mk.injEq] at h
    obtain ⟨h1, h2⟩ := h
    subst h1; subst h2
    exact Or.inr (Or.inr ⟨rfl, rfl⟩)
  | sleeping info =>
    simp only [taskNext, Option.some.injEq, Prod.mk.injEq] at h
    obtain ⟨h1, h2⟩ := h
    subst h1; subst h2
    exact Or.inr (Or.inl ⟨rfl, rfl, rfl⟩)
  | done info => simp [taskNext] at h

/-- A step preserves the per-task knowledge `detInv`. -/
theorem detInv_next (t : ProbeTask) (ph : Phase) (e : Eff)
    (hnext : taskNext t.phase t.behavior = some (ph, e)) (hd : detInv t) :
    detInv { t with phase := ph } := by
  obtain ⟨port, b, ph0⟩ := t
  simp only at hnext hd ⊢
  cases ph0 with
  | waitPermit =>
    simp only [taskNext, Option.some.injEq, Prod.mk.injEq] at hnext
    obtain ⟨h1, _⟩ := hnext
    subst h1
    trivial
  | connecting =>
    cases b with
    | silent =>
      simp only [taskNext, Option.some.injEq, Prod.mk.injEq] at hnext
      obtain ⟨h1, _⟩ := hnext
      subst h1
      simp [detInv, probeInfo]
    | refused =>
      simp only [taskNext, Option.some.injEq, Prod.mk.injEq] at hnext
      obtain ⟨h1, _⟩ := hnext
      subst h1
      simp [detInv, probeInfo]
    | failed d =>
      simp only [taskNext, Option.some.injEq, Prod.mk.injEq] at hnext
      obtain ⟨h1, _⟩ := hnext
      subst h1
      simp [detInv, probeInfo]
    | accepts ct r =>
      by_cases hct : CONNECT_TIMEOUT_TICKS < ct
      · simp only [taskNext, hct, if_true, Option.some.injEq, Prod.mk.injEq] at hnext
        obtain ⟨h1, _⟩ := hnext
        subst h1
        simp [detInv, probeInfo, hct]
      · simp only [taskNext, hct, if_false, Option.some.injEq, Prod.mk.injEq] at hnext
        obtain ⟨h1, _⟩ := hnext
        subst h1
        exact ⟨ct, r, rfl, Nat.le_of_not_lt hct⟩
  | reading =>
    obtain ⟨ct, r, hb, hle⟩ := hd
    subst hb
    cases hf : fetch_service_banner r with
    | error d =>
      simp only [taskNext, hf, Option.some.injEq, Prod.mk.injEq] at hnext
      obtain ⟨h1, _⟩ := hnext
      subst h1
      simp [detInv, probeInfo, Nat.not_lt.mpr hle, hf]
    | ok info =>
      simp only [taskNext, hf, Option.some.injEq, Prod.mk.injEq] at hnext
      obtain ⟨h1, _⟩ := hnext
      subst h1
      exact ⟨ct, r, rfl, hle, hf⟩
  | closing info =>
    simp only [taskNext, Option.some.injEq, Prod.mk.injEq] at hnext
    obtain ⟨h1, _⟩ := hnext
    subst h1
    exact hd
  | sleeping info =>
    obtain ⟨ct, r, hb, hle, hf⟩ := hd
    subst hb
    simp only [taskNext, Option.some.injEq, Prod.mk.injEq] at hnext
    obtain ⟨h1, _⟩ := hnext
    subst h1
    simp [detInv, probeInfo, Nat.not_lt.mpr hle, hf]
  | done info => simp [taskNext] at hnext

/-- The inductive invariant of a scan run: the free permits and the
permit-holding tasks account exactly for the semaphore's capacity; the
port/behaviour of each task is fixed by the input; and each task
satisfies its per-phase knowledge. -/
def scanInv (ports : List Nat) (net : Nat → NetBehavior) (s : SchedState) : Prop :=
  s.permits + countHolders s.tasks = MAX_CONCURRENT_SCANS ∧
  s.tasks.map (fun t => (t.port, t.behavior)) = ports.map (fun p => (p, net p)) ∧
  ∀ t ∈ s.tasks, detInv t

/-- The invariant holds initially. -/
theorem scanInv_init (ports : List Nat) (net : Nat → NetBehavior) :
    scanInv ports net (initState ports net) := by
  refine ⟨?_, ?_, ?_⟩
  · have h0 : countHolders (initState ports net).tasks = 0 := by
      rw [countHolders, List.countP_eq_zero]
      intro t ht
      simp only [initState, List.mem_map] at ht
      obtain ⟨p, _, hp⟩ := ht
      subst hp
      simp [holdsPermit]
    rw [h0]
    rfl
  · simp [initState, List.map_map]
  · intro t ht
    simp only [initState, List.mem_map] at ht
    obtain ⟨p, _, hp⟩ := ht
    subst hp
    trivial

/-- The invariant is preserved by every scheduler step. -/
theorem scanInv_step {ports : List Nat} {net : Nat → NetBehavior} {s s' : SchedState}
    (hs : Step s s') (hinv : scanInv ports net s) : scanInv ports net s' := by
  obtain ⟨hcount, hsig, hdet⟩ := hinv
  cases hs with
  | step i t ph e hget hnext hacq =>
    refine ⟨?_, ?_, ?_⟩
    · have hbal := countP_set_balance (fun t => holdsPermit t.phase) s.tasks i t
        { t with phase := ph } hget
      have hh := taskNext_holds t.phase t.behavior ph e hnext
      simp only [countHolders] at hcount ⊢
      rcases hh with ⟨he, ho, hn⟩ | ⟨he, ho, hn⟩ | ⟨he, hn⟩
      · subst he
        have hpos : 0 < s.permits := hacq rfl
        simp [ho, hn] at hbal
        simp only [applyEff]
        omega
      · subst he
        simp [ho, hn] at hbal
        simp only [applyEff]
        omega
      · subst he
        simp [hn] at hbal
        simp only [applyEff]
        omega
    · have hm : (s.tasks.map (fun t => (t.port, t.behavior)))[i]? =
          some (t.port, t.behavior) := by
        rw [List.getElem?_map, hget]
        rfl
      calc (s.tasks.set i { t with phase := ph }).map (fun t => (t.port, t.behavior))
          = (s.tasks.map (fun t => (t.port, t.behavior))).set i (t.port, t.behavior) := by
            rw [List.map_set]
        _ = s.tasks.map (fun t => (t.port, t.behavior)) :=
            set_getElem?_self _ _ _ hm
        _ = ports.map (fun p => (p, net p)) := hsig
    · intro x hx
      rcases List.mem_or_eq_of_mem_set hx with hx' | hx'
      · exact hdet x hx'
      · subst hx'
        exact detInv_next t ph e hnext (hdet t (List.getElem?_mem hget))

/-- The invariant holds in every reachable state of a scan. -/
theorem scanInv_reach {ports : List Nat} {net : Nat → NetBehavior} {s : SchedState}
    (h : Reach (initState ports net) s) : scanInv ports net s := by
  have h' : Relation.ReflTransGen Step (initState ports net) s := h
  clear h
  induction h' with
  | refl => exact scanInv_init ports net
  | tail hR hstep ih => exact scanInv_step hstep ih

/-- A task with a live connection holds a permit. -/
theorem activeConn_holdsPermit (ph : Phase) (h : activeConn ph = true) :
    holdsPermit ph = true := by
  cases ph <;> simp [activeConn, holdsPermit] at h ⊢

/-! ### Determinism of a completed scan -/

/-- The pair a probe returns is its own port together with the info
computed from the network behaviour alone. -/
theorem scan_port_result (host : String) (port : Nat) (b : NetBehavior) :
    (scan_port host port b).result = (port, probeInfo b) := by
  cases b with
  | silent => rfl
  | refused => rfl
  | failed d => rfl
  | accepts t r =>
    by_cases ht : CONNECT_TIMEOUT_TICKS < t
    · simp [scan_port, probeInfo, ht]
    · cases hf : fetch_service_banner r with
      | error d => simp [scan_port, probeInfo, ht, hf]
      | ok info => simp [scan_port, probeInfo, ht, hf]

/-- `scan_ports` is the dict comprehension over the per-port infos. -/
theorem scan_ports_eq_probeInfo (host : String) (ports : List Nat)
    (net : Nat → NetBehavior) :
    scan_ports host ports net =
      buildOpenPorts (ports.map (fun p => (p, probeInfo (net p)))) := by
  unfold scan_ports
  have hfun : (fun p => (scan_port host p (net p)).result) =
      (fun p => (p, probeInfo (net p))) :=
    funext (fun p => scan_port_result host p (net p))
  rw [hfun]

/-- In a finished run the tasks' results are fully determined by the
input ports and the network behaviour. -/
theorem resultsOf_of_done (net : Nat → NetBehavior) :
    ∀ (ts : List ProbeTask) (ps : List Nat),
      ts.map (fun t => (t.port, t.behavior)) = ps.map (fun p => (p, net p)) →
      (∀ t ∈ ts, detInv t) →
      (∀ t ∈ ts, ∃ info, t.phase = Phase.done info) →
      ts.map (fun t => (t.port, phaseInfo t.phase)) =
        ps.map (fun p => (p, probeInfo (net p))) := by
  intro ts
  induction ts with
  | nil =>
    intro ps hsig _ _
    cases ps with
    | nil => rfl
    | cons p ps' => simp at hsig
  | cons t ts ih =>
    intro ps hsig hdet hdone
    cases ps with
    | nil => simp at hsig
    | cons p ps' =>
      simp only [List.map_cons, List.cons.injEq, Prod.mk.injEq] at hsig
      obtain ⟨⟨hport, hbeh⟩, htail⟩ := hsig
      obtain ⟨info, hph⟩ := hdone t (List.mem_cons_self t ts)
      have hdt := hdet t (List.mem_cons_self t ts)
      rw [detInv] at hdt
      rw [hph] at hdt
      simp only [List.map_cons, List.cons.injEq, Prod.mk.injEq]
      refine ⟨⟨hport, ?_⟩, ?_⟩
      · rw [hph]
        simp only [phaseInfo]
        rw [hdt, hbeh]
      · exact ih ps' htail
          (fun x hx => hdet x (List.mem_cons_of_mem t hx))
          (fun x hx => hdone x (List.mem_cons_of_mem t hx))

/-- Any complete execution ends with the canonical results. -/
theorem resultsOf_allDone {ports : List Nat} {net : Nat → NetBehavior} {s : SchedState}
    (h : Reach (initState ports net) s) (hd : allDone s) :
    resultsOf s = ports.map (fun p => (p, probeInfo (net p))) := by
  obtain ⟨-, hsig, hdet⟩ := scanInv_reach h
  exact resultsOf_of_done net s.tasks ports hsig hdet hd

/-- Claim C1: during a scan — for any input port list, in particular
lists longer than the capacity — the number of probes with an in-flight
connection attempt or a not-yet-torn-down connection never exceeds the
`ConcurrencyLimiter` capacity `MAX_CONCURRENT_SCANS = 100` in any
reachable scheduler state: every such probe holds a semaphore permit
(the connection phases all lie inside the `async with semaphore`
block entered before the attempt), and free permits plus held permits
always account exactly for the capacity. -/
theorem concurrency_bound (ports : List Nat) (net : Nat → NetBehavior) (s : SchedState)
    (h : Reach (initState ports net) s) :
    countActive s.tasks ≤ countHolders s.tasks ∧
    s.permits + countHolders s.tasks = MAX_CONCURRENT_SCANS ∧
    countActive s.tasks ≤ MAX_CONCURRENT_SCANS := by
  obtain ⟨hcount, -, -⟩ := scanInv_reach h
  have hmono : countActive s.tasks ≤ countHolders s.tasks :=
    List.countP_mono_left (fun t _ ht => activeConn_holdsPermit t.phase ht)
  exact ⟨hmono, hcount, by omega⟩

/-- Witness for `concurrency_bound`: the initial state of a scan of
three ports against a refusing target is reachable, and its active
count is within the capacity. -/
theorem concurrency_bound_witness :
    Reach (initState [1, 2, 3] (fun _ => NetBehavior.refused))
        (initState [1, 2, 3] (fun _ => NetBehavior.refused)) ∧
    countActive (initState [1, 2, 3] (fun _ => NetBehavior.refused)).tasks ≤
      MAX_CONCURRENT_SCANS :=
  ⟨Relation.ReflTransGen.refl,
    (concurrency_bound [1, 2, 3] (fun _ => NetBehavior.refused) _
      Relation.ReflTransGen.refl).2.2⟩

/-- Claim C9: determinism and idempotence against a stable target: any
two complete executions of the same scan — any two interleavings the
event loop may choose, over two runs — end with identical per-port
results, and the resulting open-ports dict is exactly the one the
functional model `scan_ports` computes. -/
theorem scan_deterministic (host : String) (ports : List Nat) (net : Nat → NetBehavior)
    (s1 s2 : SchedState)
    (h1 : Reach (initState ports net) s1) (hd1 : allDone s1)
    (h2 : Reach (initState ports net) s2) (hd2 : allDone s2) :
    resultsOf s1 = resultsOf s2 ∧
    buildOpenPorts (resultsOf s1) = scan_ports host ports net := by
  have e1 := resultsOf_allDone h1 hd1
  have e2 := resultsOf_allDone h2 hd2
  refine ⟨e1.trans e2.symm, ?_⟩
  rw [e1, scan_ports_eq_probeInfo]

/-- Witness for `scan_deterministic` on the empty port list, whose
initial state is already complete. -/
theorem scan_deterministic_witness :
    allDone (initState [] (fun _ => NetBehavior.refused)) ∧
    buildOpenPorts (resultsOf (initState [] (fun _ => NetBehavior.refused))) =
      scan_ports "127.0.0.1" [] (fun _ => NetBehavior.refused) :=
  ⟨by decide,
    (scan_deterministic "127.0.0.1" [] (fun _ => NetBehavior.refused) _ _
      Relation.ReflTransGen.refl (by decide)
      Relation.ReflTransGen.refl (by decide)).2⟩

/-! ### Dict-comprehension lemmas -/

/-- If no key of `m` equals `k`, the overwrite pass of `dictInsert` is
the identity. -/
theorem map_overwrite_of_no_match (m : List (Nat × String)) (k : Nat) (v : String)
    (h : (m.any (fun q => q.fst == k)) = false) :
    m.map (fun kv => if kv.fst = k then (k, v) else kv) = m := by
  induction m with
  | nil => rfl
  | cons q m' ih =>
    simp only [List.any_cons, Bool.or_eq_false_iff] at h
    obtain ⟨h1, h2⟩ := h
    have hne : ¬q.fst = k := by simpa using h1
    simp [hne, ih h2]

/-- Lookup after insertion: the inserted key sees the new value, every
other key is untouched. -/
theorem dictGet_insert (m : List (Nat × String)) (k : Nat) (v : String) (x : Nat) :
    dictGet (dictInsert m k v) x = if x = k then some v else dictGet m x := by
  induction m with
  | nil =>
    by_cases hx : x = k
    · subst hx
      simp [dictInsert, dictGet]
    · have hb : (k == x) = false := by simp [Ne.symm hx]
      simp [dictInsert, dictGet, List.find?, hb, hx]
  | cons kv m' ih =>
    by_cases hhead : kv.fst = k
    · have hany : ((kv :: m').any (fun q => q.fst == k)) = true := by
        simp [List.any_cons, hhead]
      rw [dictInsert, if_pos hany]
      simp only [List.map_cons, if_pos hhead]
      by_cases hx : x = k
      · subst hx
        simp [dictGet, List.find?]
      · have hfind : ((k, v).fst == x) = false := by simp [Ne.symm hx]
        rw [dictGet, List.find?_cons_of_neg _ (by simp [hfind])]
        rw [if_neg hx]
        have hkvx : (kv.fst == x) = false := by simp [hhead, Ne.symm hx]
        rw [dictGet, List.find?_cons_of_neg _ (by simp [hkvx])]
        by_cases hany' : (m'.any (fun q => q.fst == k)) = true
        · have := ih
          rw [dictInsert, if_pos hany'] at this
          rw [if_neg hx] at this
          rw [dictGet, dictGet] at this
          exact this
        · rw [map_overwrite_of_no_match m' k v (Bool.eq_false_iff.mpr hany')]
    · by_cases hany' : (m'.any (fun q => q.fst == k)) = true
      · have hany : ((kv :: m').any (fun q => q.fst == k)) = true := by
          simp [List.any_cons, hany']
        rw [dictInsert, if_pos hany]
        simp only [List.map_cons, if_neg hhead]
        by_cases hhx : kv.fst = x
        · have hx : ¬x = k := fun he => hhead (hhx.trans he)
          rw [dictGet, List.find?_cons_of_pos _ (by simp [hhx])]
          rw [if_neg hx]
          rw [dictGet, List.find?_cons_of_pos _ (by simp [hhx])]
        · rw [dictGet, List.find?_cons_of_neg _ (by simp [hhx])]
          rw [dictGet, List.find?_cons_of_neg _ (by simp [hhx])]
          have := ih
          rw [dictInsert, if_pos hany'] at this
          rw [dictGet, dictGet] at this
          exact this
      · have hany : ((kv :: m').any (fun q => q.fst == k)) = false := by
          simp only [List.any_cons, Bool.or_eq_false_iff]
          exact ⟨by simp [hhead], Bool.eq_false_iff.mpr hany'⟩
        rw [dictInsert, if_neg (by simp [hany])]
        rw [List.cons_append]
        by_cases hhx : kv.fst = x
        · rw [dictGet, List.find?_cons_of_pos _ (by simp [hhx])]
          have hx : ¬x = k := by rw [← hhx]; exact hhead
          rw [if_neg hx]
          rw [dictGet, List.find?_cons_of_pos _ (by simp [hhx])]
        · rw [dictGet, List.find?_cons_of_neg _ (by simp [hhx])]
          rw [dictGet, List.find?_cons_of_neg _ (by simp [hhx])]
          have := ih
          rw [dictInsert, if_neg (by rw [Bool.eq_false_iff.mpr hany']; simp)] at this
          rw [dictGet, dictGet] at this
          exact this

/-- A key is in the dict exactly when its lookup succeeds. -/
theorem dictGet_isSome_iff_mem_keys (m : List (Nat × String)) (x : Nat) :
    (dictGet m x).isSome = true ↔ x ∈ dictKeys m := by
  induction m with
  | nil => simp [dictGet, dictKeys]
  | cons kv m' ih =>
    by_cases h : kv.fst = x
    · rw [dictGet, List.find?_cons_of_pos _ (by simp [h])]
      simp [dictKeys, h]
    · rw [dictGet, List.find?_cons_of_neg _ (by simp [h])]
      have hne : x ≠ kv.fst := fun he => h he.symm
      rw [show dictKeys (kv :: m') = kv.fst :: dictKeys m' from rfl, List.mem_cons]
      constructor
      · intro hs
        exact Or.inr (ih.mp (by rw [dictGet]; exact hs))
      · intro hm
        rcases hm with he | hm
        · exact absurd he hne
        · have hz := ih.mpr hm
          rw [dictGet] at hz
          exact hz

/-- If every result for `port` carries no info, folding the results
leaves the lookup of `port` unchanged. -/
theorem foldl_openStep_get_none (port : Nat) :
    ∀ (results : List (Nat × Option String)) (acc : List (Nat × String)),
      (∀ pr ∈ results, pr.fst = port → pr.snd = none) →
      dictGet (results.foldl openStep acc) port = dictGet acc port := by
  intro results
  induction results with
  | nil => intro acc _; rfl
  | cons pr rs ih =>
    intro acc hall
    rw [List.foldl_cons]
    rw [ih (openStep acc pr) (fun q hq => hall q (List.mem_cons_of_mem pr hq))]
    cases hsnd : pr.snd with
    | none => simp [openStep, hsnd]
    | some i =>
      by_cases hp : pr.fst = port
      · exact absurd hsnd (by rw [hall pr (List.mem_cons_self pr rs) hp]; simp)
      · simp only [openStep, hsnd]
        rw [dictGet_insert]
        rw [if_neg (fun he => hp he.symm)]

/-- If every result for `port` carries the same info `v` and at least
one result for `port` exists (or the accumulator already maps it to
`v`), the fold maps `port` to `v`. -/
theorem foldl_openStep_get_some (port : Nat) (v : String) :
    ∀ (results : List (Nat × Option String)) (acc : List (Nat × String)),
      (∀ pr ∈ results, pr.fst = port → pr.snd = some v) →
      ((∃ pr ∈ results, pr.fst = port) ∨ dictGet acc port = some v) →
      dictGet (results.foldl openStep acc) port = some v := by
  intro results
  induction results with
  | nil =>
    intro acc _ hstart
    rcases hstart with ⟨pr, hmem, _⟩ | hget
    · simp at hmem
    · exact hget
  | cons pr rs ih =>
    intro acc hall hstart
    rw [List.foldl_cons]
    have htail : ∀ q ∈ rs, q.fst = port → q.snd = some v :=
      fun q hq => hall q (List.mem_cons_of_mem pr hq)
    by_cases hp : pr.fst = port
    · have hsnd := hall pr (List.mem_cons_self pr rs) hp
      have hacc : dictGet (openStep acc pr) port = some v := by
        simp only [openStep, hsnd]
        rw [dictGet_insert, hp, if_pos rfl]
      exact ih (openStep acc pr) htail (Or.inr hacc)
    · have hacc : dictGet (openStep acc pr) port = dictGet acc port := by
        cases hsnd : pr.snd with
        | none => simp [openStep, hsnd]
        | some i =>
          simp only [openStep, hsnd]
          rw [dictGet_insert, if_neg (fun he => hp he.symm)]
      rcases hstart with ⟨q, hq, hqp⟩ | hget
      · rcases List.mem_cons.mp hq with he | hq'
        · exact absurd hqp (he ▸ hp)
        · exact ih (openStep acc pr) htail (Or.inl ⟨q, hq', hqp⟩)
      · exact ih (openStep acc pr) htail (Or.inr (hacc.trans hget))

/-- A port whose probe produced no info is absent from the scan result. -/
theorem scan_ports_not_mem (host : String) (ports : List Nat) (net : Nat → NetBehavior)
    (port : Nat) (hnone : probeInfo (net port) = none) :
    port ∉ dictKeys (scan_ports host ports net) := by
  intro hmem
  have hsome := (dictGet_isSome_iff_mem_keys _ port).mpr hmem
  rw [scan_ports_eq_probeInfo] at hsome
  rw [buildOpenPorts] at hsome
  rw [foldl_openStep_get_none port _ []] at hsome
  · simp [dictGet] at hsome
  · intro pr hpr hfst
    obtain ⟨p, _, rfl⟩ := List.mem_map.mp hpr
    simp only at hfst
    rw [hfst, hnone]

/-- A port whose probe produced info `v` and which occurs in the input
list is mapped to `v` in the scan result. -/
theorem scan_ports_get_some (host : String) (ports : List Nat) (net : Nat → NetBehavior)
    (port : Nat) (v : String) (hmem : port ∈ ports)
    (hv : probeInfo (net port) = some v) :
    dictGet (scan_ports host ports net) port = some v := by
  rw [scan_ports_eq_probeInfo, buildOpenPorts]
  apply foldl_openStep_get_some
  · intro pr hpr hfst
    obtain ⟨p, _, rfl⟩ := List.mem_map.mp hpr
    simp only at hfst ⊢
    rw [hfst, hv]
  · exact Or.inl ⟨(port, probeInfo (net port)), List.mem_map.mpr ⟨port, hmem, rfl⟩, rfl⟩

/-- Every key of the scan result is an element of the input port list. -/
theorem scan_ports_keys_subset (host : String) (ports : List Nat) (net : Nat → NetBehavior)
    (x : Nat) (hx : x ∈ dictKeys (scan_ports host ports net)) : x ∈ ports := by
  by_contra hnot
  have hsome := (dictGet_isSome_iff_mem_keys _ x).mpr hx
  rw [scan_ports_eq_probeInfo, buildOpenPorts] at hsome
  rw [foldl_openStep_get_none x _ []] at hsome
  · simp [dictGet] at hsome
  · intro pr hpr hfst
    obtain ⟨p, hp, rfl⟩ := List.mem_map.mp hpr
    simp only at hfst
    exact absurd (hfst ▸ hp) hnot

/-! ### Per-claim theorems over the functional model -/

/-- A probe that did not take the success path returns no info. -/
theorem probeInfo_none_of_not_open (host : String) (port : Nat) (b : NetBehavior)
    (hs : (scan_port host port b).status ≠ Status.openS) : probeInfo b = none := by
  cases b with
  | silent => rfl
  | refused => rfl
  | failed d => rfl
  | accepts t r =>
    by_cases ht : CONNECT_TIMEOUT_TICKS < t
    · simp [probeInfo, ht]
    · cases hf : fetch_service_banner r with
      | error d => simp [probeInfo, ht, hf]
      | ok info => exact absurd (by simp [scan_port, ht, hf]) hs

/-- Claim C2: a probe that ends in the Timeout, Refused or Error branch
recovers locally: it still returns `(port, None)` normally (so the
orchestrator never aborts because of it), its outcome is logged, and
the port is absent from the resulting open-ports dict; in particular a
refused connection is classified by the `ConnectionRefusedError`
branch. -/
theorem failed_probe_recovered_logged_absent (host : String) (port : Nat)
    (ports : List Nat) (net : Nat → NetBehavior)
    (hfail : (scan_port host port (net port)).status = Status.timeoutS ∨
             (scan_port host port (net port)).status = Status.refusedS ∨
             (scan_port host port (net port)).status = Status.errorS) :
    (scan_port host port (net port)).result = (port, none) ∧
    (∃ entry, (scan_port host port (net port)).log = some entry) ∧
    port ∉ dictKeys (scan_ports host ports net) ∧
    (net port = NetBehavior.refused →
      (scan_port host port (net port)).status = Status.refusedS) := by
  have hnot : (scan_port host port (net port)).status ≠ Status.openS := by
    rcases hfail with h | h | h <;> (rw [h]; exact fun hc => Status.noConfusion hc)
  have hnone := probeInfo_none_of_not_open host port (net port) hnot
  refine ⟨?_, ?_, scan_ports_not_mem host ports net port hnone, ?_⟩
  · rw [scan_port_result, hnone]
  · cases hb : net port with
    | silent => exact ⟨_, rfl⟩
    | refused => exact ⟨_, rfl⟩
    | failed d => exact ⟨_, rfl⟩
    | accepts t r =>
      by_cases ht : CONNECT_TIMEOUT_TICKS < t
      · exact ⟨⟨LogLevel.warning, timeoutMsg host port⟩, by simp [scan_port, hb, ht]⟩
      · cases hf : fetch_service_banner r with
        | error d =>
          exact ⟨⟨LogLevel.error, unexpectedMsg host port d⟩, by simp [scan_port, hb, ht, hf]⟩
        | ok info => exact absurd (by simp [scan_port, hb, ht, hf]) hnot
  · intro hb
    rw [hb]
    rfl

/-- Witness for `failed_probe_recovered_logged_absent` at a refused
port. -/
theorem failed_probe_recovered_logged_absent_witness :
    (scan_port "h" 80 ((fun _ => NetBehavior.refused) 80)).status = Status.refusedS ∧
    80 ∉ dictKeys (scan_ports "h" [80] (fun _ => NetBehavior.refused)) :=
  ⟨rfl, (failed_probe_recovered_logged_absent "h" 80 [80] (fun _ => NetBehavior.refused)
      (Or.inr (Or.inl rfl))).2.2.1⟩

/-- Claim C3: when the connection succeeds within budget and the read
window yields no data (an empty read), the probe takes the success path
(`openS`) with an empty banner, and the port appears in the scan result
mapped to the empty string — the missing banner does not downgrade the
classification. -/
theorem empty_read_open_and_present (host : String) (port t d : Nat)
    (ports : List Nat) (net : Nat → NetBehavior)
    (ht : t ≤ CONNECT_TIMEOUT_TICKS)
    (hnet : net port = NetBehavior.accepts t (ReadBehavior.ready [] d))
    (hmem : port ∈ ports) :
    (scan_port host port (net port)).status = Status.openS ∧
    (scan_port host port (net port)).result = (port, some "") ∧
    dictGet (scan_ports host ports net) port = some "" := by
  have hfetch : fetch_service_banner (ReadBehavior.ready [] d) = Except.ok (some "") := rfl
  have hnt : ¬ CONNECT_TIMEOUT_TICKS < t := Nat.not_lt.mpr ht
  have hpi : probeInfo (net port) = some "" := by
    rw [hnet]
    simp [probeInfo, hnt, hfetch]
  refine ⟨?_, ?_, scan_ports_get_some host ports net port "" hmem hpi⟩
  · rw [hnet]
    simp [scan_port, hnt, hfetch]
  · rw [scan_port_result, hpi]

/-- Witness for `empty_read_open_and_present` on a one-port scan whose
target accepts instantly and sends nothing. -/
theorem empty_read_open_and_present_witness :
    (0 ≤ CONNECT_TIMEOUT_TICKS ∧ 22 ∈ [22]) ∧
    dictGet (scan_ports "h" [22]
      (fun _ => NetBehavior.accepts 0 (ReadBehavior.ready [] 0))) 22 = some "" :=
  ⟨⟨by decide, by decide⟩,
    (empty_read_open_and_present "h" 22 0 0 [22]
      (fun _ => NetBehavior.accepts 0 (ReadBehavior.ready [] 0))
      (by decide) rfl (by decide)).2.2⟩

/-- Claim C8: when the banner bytes do not decode, the failure escapes
`fetch_service_banner` as an error (it is not turned into an empty
banner), the probe is classified by the generic `Exception` handler,
logged at error level with the detail, and the port is excluded from
the scan result. -/
theorem decode_failure_propagates_error_absent (host : String) (port t d : Nat)
    (bytes : List Nat) (ports : List Nat) (net : Nat → NetBehavior)
    (ht : t ≤ CONNECT_TIMEOUT_TICKS)
    (hdec : utf8Decode (bytes.take 1024) = none)
    (hnet : net port = NetBehavior.accepts t (ReadBehavior.ready bytes d)) :
    fetch_service_banner (ReadBehavior.ready bytes d) = Except.error "UnicodeDecodeError" ∧
    (scan_port host port (net port)).status = Status.errorS ∧
    (scan_port host port (net port)).log =
      some ⟨LogLevel.error, unexpectedMsg host port "UnicodeDecodeError"⟩ ∧
    (scan_port host port (net port)).result = (port, none) ∧
    port ∉ dictKeys (scan_ports host ports net) := by
  have hnt : ¬ CONNECT_TIMEOUT_TICKS < t := Nat.not_lt.mpr ht
  have hfetch : fetch_service_banner (ReadBehavior.ready bytes d) =
      Except.error "UnicodeDecodeError" := by
    simp [fetch_service_banner, hdec]
  have hpi : probeInfo (net port) = none := by
    rw [hnet]
    simp [probeInfo, hnt, hfetch]
  refine ⟨hfetch, ?_, ?_, ?_, scan_ports_not_mem host ports net port hpi⟩
  · rw [hnet]
    simp [scan_port, hnt, hfetch]
  · rw [hnet]
    simp [scan_port, hnt, hfetch]
  · rw [scan_port_result, hpi]

/-- Witness for `decode_failure_propagates_error_absent` with the
single byte `0xFF`, which is not valid UTF-8. -/
theorem decode_failure_propagates_error_absent_witness :
    (0 ≤ CONNECT_TIMEOUT_TICKS ∧ utf8Decode ([255].take 1024) = none) ∧
    443 ∉ dictKeys (scan_ports "h" [443]
      (fun _ => NetBehavior.accepts 0 (ReadBehavior.ready [255] 0))) :=
  ⟨⟨by decide, by decide⟩,
    (decode_failure_propagates_error_absent "h" 443 0 0 [255] [443]
      (fun _ => NetBehavior.accepts 0 (ReadBehavior.ready [255] 0))
      (by decide) (by decide) rfl).2.2.2.2⟩

/-- Claim C10: every probe returns normally with its own port as the
first component of the returned pair; hence every key of the scan
result is an element of the input port list, and the empty port list
yields the empty dict. -/
theorem probe_total_keys_from_input (host : String) (port : Nat) (b : NetBehavior)
    (ports : List Nat) (net : Nat → NetBehavior) :
    (scan_port host port b).result.fst = port ∧
    (∀ x ∈ dictKeys (scan_ports host ports net), x ∈ ports) ∧
    scan_ports host [] net = [] := by
  exact ⟨by rw [scan_port_result],
    fun x hx => scan_ports_keys_subset host ports net x hx, rfl⟩

/-- Witness for `probe_total_keys_from_input`: a key observed in a
concrete scan result is an input port. -/
theorem probe_total_keys_from_input_witness : 9999 ∈ [9999] :=
  (probe_total_keys_from_input "h" 9999 NetBehavior.refused [9999]
    (fun _ => NetBehavior.accepts 0 (ReadBehavior.ready [104, 105] 0))).2.1 9999 (by decide)

/-! ### Cancelled reads, teardown, throttle and the read deadline -/

/-- Claim C4 counterexample: with the connection to port 9999
established instantly and the banner read cancelled,
`fetch_service_banner` returns `None` without error and the probe takes
the no-exception path, yet the scan result is EMPTY: the dict
comprehension drops the port because its info is `None`, so the port
does not appear with an empty banner as the claim states. -/
theorem cancelled_read_absent_counterexample :
    fetch_service_banner ReadBehavior.cancelled = Except.ok none ∧
    (scan_port "h" 9999 (NetBehavior.accepts 0 ReadBehavior.cancelled)).status =
      Status.openS ∧
    scan_ports "h" [9999] (fun _ => NetBehavior.accepts 0 ReadBehavior.cancelled) = [] ∧
    9999 ∉ dictKeys
      (scan_ports "h" [9999] (fun _ => NetBehavior.accepts 0 ReadBehavior.cancelled)) := by
  refine ⟨rfl, rfl, rfl, by decide⟩

/-- Claim C4 amended: if the banner read is cancelled after a
successful connection, `fetch_service_banner` returns `None` rather
than raising, and the probe still takes the success path — no log, the
connection is torn down, the pair `(port, None)` is returned — but
because the returned info is `None`, the port is ABSENT from the
ScanResult rather than present with an empty banner: a cancelled read
makes the port be reported as if closed. -/
theorem cancelled_read_open_but_excluded (host : String) (port t : Nat)
    (ports : List Nat) (net : Nat → NetBehavior)
    (ht : t ≤ CONNECT_TIMEOUT_TICKS)
    (hnet : net port = NetBehavior.accepts t ReadBehavior.cancelled) :
    fetch_service_banner ReadBehavior.cancelled = Except.ok none ∧
    (scan_port host port (net port)).status = Status.openS ∧
    (scan_port host port (net port)).log = none ∧
    Event.closeWriter ∈ (scan_port host port (net port)).events ∧
    (scan_port host port (net port)).result = (port, none) ∧
    port ∉ dictKeys (scan_ports host ports net) := by
  have hnt : ¬ CONNECT_TIMEOUT_TICKS < t := Nat.not_lt.mpr ht
  have hpi : probeInfo (net port) = none := by
    rw [hnet]
    simp [probeInfo, hnt, fetch_service_banner]
  refine ⟨rfl, ?_, ?_, ?_, ?_, scan_ports_not_mem host ports net port hpi⟩
  · rw [hnet]
    simp [scan_port, hnt, fetch_service_banner]
  · rw [hnet]
    simp [scan_port, hnt, fetch_service_banner]
  · rw [hnet]
    simp [scan_port, hnt, fetch_service_banner]
  · rw [scan_port_result, hpi]

/-- Witness for `cancelled_read_open_but_excluded` at port 9999 with an
instant connection. -/
theorem cancelled_read_open_but_excluded_witness :
    (0 ≤ CONNECT_TIMEOUT_TICKS) ∧
    9999 ∉ dictKeys
      (scan_ports "h" [9999] (fun _ => NetBehavior.accepts 0 ReadBehavior.cancelled)) :=
  ⟨by decide,
    (cancelled_read_open_but_excluded "h" 9999 0 [9999]
      (fun _ => NetBehavior.accepts 0 ReadBehavior.cancelled)
      (by decide) rfl).2.2.2.2.2⟩

/-- Claim C5 counterexample: with the connection to port 80 established
and banner bytes `[0xFF]` that fail to decode, the probe's trace shows
the connection established and the permit released, but contains no
`closeWriter` or `waitClosed`: the exception raised by `decode` jumps
to the `except Exception` handler past `writer.close()`, so the
connection is not closed, let alone before the release. -/
theorem teardown_skipped_counterexample :
    Event.connected ∈
      (scan_port "h" 80 (NetBehavior.accepts 0 (ReadBehavior.ready [255] 0))).events ∧
    Event.closeWriter ∉
      (scan_port "h" 80 (NetBehavior.accepts 0 (ReadBehavior.ready [255] 0))).events ∧
    Event.waitClosed ∉
      (scan_port "h" 80 (NetBehavior.accepts 0 (ReadBehavior.ready [255] 0))).events ∧
    Event.release ∈
      (scan_port "h" 80 (NetBehavior.accepts 0 (ReadBehavior.ready [255] 0))).events := by
  decide

/-- Claim C5 amended: the permit is indeed released on every exit path
— `release` is the last event of every probe trace — and on the
no-exception path the connection is closed and its teardown awaited
before the release; but on an exception path reached after the
connection was established (decode failure or read error) the code
jumps to the `except` handler without closing the connection, so
close-before-release holds only on the success path. -/
theorem release_always_teardown_on_success (host : String) (port : Nat) (b : NetBehavior) :
    (scan_port host port b).events.getLast? = some Event.release ∧
    ((scan_port host port b).status = Status.openS →
      (scan_port host port b).events =
        [Event.acquire, Event.connectAttempt, Event.connected, Event.closeWriter,
         Event.waitClosed, Event.sleepDelay, Event.release]) := by
  cases b with
  | silent => exact ⟨rfl, fun h => by simp [scan_port] at h⟩
  | refused => exact ⟨rfl, fun h => by simp [scan_port] at h⟩
  | failed d => exact ⟨rfl, fun h => by simp [scan_port] at h⟩
  | accepts t r =>
    by_cases ht : CONNECT_TIMEOUT_TICKS < t
    · have he : (scan_port host port (NetBehavior.accepts t r)).events =
          [Event.acquire, Event.connectAttempt, Event.release] := by
        simp [scan_port, ht]
      exact ⟨by rw [he]; rfl, fun h => by simp [scan_port, ht] at h⟩
    · cases hf : fetch_service_banner r with
      | error d =>
        have he : (scan_port host port (NetBehavior.accepts t r)).events =
            [Event.acquire, Event.connectAttempt, Event.connected, Event.release] := by
          simp [scan_port, ht, hf]
        exact ⟨by rw [he]; rfl, fun h => by simp [scan_port, ht, hf] at h⟩
      | ok info =>
        have he : (scan_port host port (NetBehavior.accepts t r)).events =
            [Event.acquire, Event.connectAttempt, Event.connected, Event.closeWriter,
             Event.waitClosed, Event.sleepDelay, Event.release] := by
          simp [scan_port, ht, hf]
        exact ⟨by rw [he]; rfl, fun _ => he⟩

/-- Witness for `release_always_teardown_on_success`: a concrete open
probe whose full trace shows teardown before release. -/
theorem release_always_teardown_on_success_witness :
    (scan_port "h" 22 (NetBehavior.accepts 0 (ReadBehavior.ready [104] 0))).events =
      [Event.acquire, Event.connectAttempt, Event.connected, Event.closeWriter,
       Event.waitClosed, Event.sleepDelay, Event.release] :=
  (release_always_teardown_on_success "h" 22
    (NetBehavior.accepts 0 (ReadBehavior.ready [104] 0))).2 (by decide)

/-- Claim C6 counterexample: a refused probe returns straight from its
`except` handler: its trace contains no `sleepDelay` event at all, so
the fixed inter-probe pause is not applied to every outcome. -/
theorem no_delay_on_refused_counterexample :
    (scan_port "h" 80 NetBehavior.refused).status = Status.refusedS ∧
    Event.sleepDelay ∉ (scan_port "h" 80 NetBehavior.refused).events := by
  decide

/-- Claim C6 amended: the `asyncio.sleep(0.1)` throttle runs exactly on
the success path — a probe ending in Timeout/Refused/Error returns
without pausing — and on that path it runs BEFORE the permit release
(the sleep sits inside the `async with` block on line 27), not after
it, as the success trace shows. -/
theorem delay_only_on_success_before_release (host : String) (port : Nat) (b : NetBehavior) :
    (Event.sleepDelay ∈ (scan_port host port b).events ↔
      (scan_port host port b).status = Status.openS) ∧
    ((scan_port host port b).status = Status.openS →
      (scan_port host port b).events =
        [Event.acquire, Event.connectAttempt, Event.connected, Event.closeWriter,
         Event.waitClosed, Event.sleepDelay, Event.release]) := by
  cases b with
  | silent => exact ⟨by simp [scan_port], fun h => by simp [scan_port] at h⟩
  | refused => exact ⟨by simp [scan_port], fun h => by simp [scan_port] at h⟩
  | failed d => exact ⟨by simp [scan_port], fun h => by simp [scan_port] at h⟩
  | accepts t r =>
    by_cases ht : CONNECT_TIMEOUT_TICKS < t
    · exact ⟨by simp [scan_port, ht], fun h => by simp [scan_port, ht] at h⟩
    · cases hf : fetch_service_banner r with
      | error d =>
        exact ⟨by simp [scan_port, ht, hf], fun h => by simp [scan_port, ht, hf] at h⟩
      | ok info =>
        exact ⟨by simp [scan_port, ht, hf], fun _ => by simp [scan_port, ht, hf]⟩

/-- Witness for `delay_only_on_success_before_release`: the open probe
of a silent-but-accepting port does pause. -/
theorem delay_only_on_success_before_release_witness :
    Event.sleepDelay ∈
      (scan_port "h" 22 (NetBehavior.accepts 0 ReadBehavior.cancelled)).events :=
  ((delay_only_on_success_before_release "h" 22
    (NetBehavior.accepts 0 ReadBehavior.cancelled)).1).mpr (by decide)

/-- The time until `reader.read(1024)` completes, for a read behaviour
that does complete. -/
def readDelayTicks : ReadBehavior → Nat
  | .ready _ d => d
  | _ => 0

/-- Claim C7 counterexample: a connection established instantly whose
read completes only after 1000 ticks — one hundred times the whole
10-tick probe budget — still ends on the success path with the port
reported Open: no deadline bounds the banner read, because
`asyncio.wait_for(…, timeout=1)` wraps only `open_connection`
(line 22) while `fetch_service_banner` is awaited without any timeout
(line 24). -/
theorem read_past_budget_counterexample :
    readDelayTicks (ReadBehavior.ready [] 1000) = 1000 ∧
    (scan_port "h" 80 (NetBehavior.accepts 0 (ReadBehavior.ready [] 1000))).status =
      Status.openS ∧
    (scan_port "h" 80 (NetBehavior.accepts 0 (ReadBehavior.ready [] 1000))).result =
      (80, some "") ∧
    ¬(readDelayTicks (ReadBehavior.ready [] 1000) ≤ CONNECT_TIMEOUT_TICKS - 0) := by
  decide

/-- Claim C7 amended: the banner read is a single read of at most 1024
bytes — the banner depends only on the first 1024 bytes the service
sends — but it is NOT bounded by the remaining portion of the 1-unit
timeout: the probe's outcome is entirely independent of how long the
read takes (no deadline applies to it), so the probe can wait
arbitrarily long, and would hang if the service neither sent data nor
closed the connection. -/
theorem single_read_no_deadline (host : String) (port t d d2 : Nat) (bytes : List Nat) :
    fetch_service_banner (ReadBehavior.ready bytes d) =
      fetch_service_banner (ReadBehavior.ready (bytes.take 1024) d) ∧
    scan_port host port (NetBehavior.accepts t (ReadBehavior.ready bytes d)) =
      scan_port host port (NetBehavior.accepts t (ReadBehavior.ready bytes d2)) := by
  constructor
  · simp [fetch_service_banner, List.take_take]
  · rfl

example :
    ∃ s, Reach (initState [80] (fun _ => NetBehavior.refused)) s ∧ allDone s ∧
      resultsOf s = [(80, none)] := by
  refine ⟨⟨100, [⟨80, NetBehavior.refused, Phase.done none⟩]⟩, ?_, by decide, by decide⟩
  have h1 : Step (initState [80] (fun _ => NetBehavior.refused))
      ⟨99, [⟨80, NetBehavior.refused, Phase.connecting⟩]⟩ :=
    Step.step (initState [80] (fun _ => NetBehavior.refused)) 0
      ⟨80, NetBehavior.refused, Phase.waitPermit⟩ Phase.connecting Eff.acqEff
      (by decide) (by decide) (fun _ => by decide)
  have h2 : Step ⟨99, [⟨80, NetBehavior.refused, Phase.connecting⟩]⟩
      ⟨100, [⟨80, NetBehavior.refused, Phase.done none⟩]⟩ :=
    Step.step ⟨99, [⟨80, NetBehavior.refused, Phase.connecting⟩]⟩ 0
      ⟨80, NetBehavior.refused, Phase.connecting⟩ (Phase.done none) Eff.relEff
      (by decide) (by decide) (fun h => by cases h)
  exact Relation.ReflTransGen.tail (Relation.ReflTransGen.tail Relation.ReflTransGen.refl h1) h2
